import Mathlib

/-!
Shallow embedding of the message-execution context of the `gear` core
(`core/src/message/context.rs`), together with the surrounding message
and identifier model.  The `ContextStore`, `ContextOutcome` and
`MessageContext` operations are translated line by line from the Rust
source; the identifier and packet primitives, whose source files are not
part of this snapshot, are modelled from the specification (each such
definition carries a doc comment saying so).
-/

namespace Gear

/-- Modelled from the spec: program identifiers are opaque fixed-width
values; only equality and a total order (for ordered sets) are used, so
they are represented by `Nat`. -/
abbrev ProgramId := Nat

/-- Modelled from the spec: message identifiers are opaque 32-byte values
produced by deterministic, total, pure derivations; they are represented
by `Nat`, with the two derivations modelled by an injective pairing. -/
abbrev MessageId := Nat

/-- Modelled from the spec: a payload is an ordered byte sequence
supporting append and prepend. -/
abbrev Payload := List Nat

/-- Modelled from the spec: `Outgoing = H(current_incoming_id, handle_index_u32)`;
the fixed platform hash is modelled by an injective pairing. -/
def MessageId.generate_outgoing (origin : MessageId) (handle : Nat) : MessageId :=
  Nat.pair 1 (Nat.pair origin handle)

/-- Modelled from the spec: encoding of an `i32` exit code as a `Nat`. -/
def exitCodeNat (e : Int) : Nat :=
  (e + 2 ^ 31).toNat

/-- Modelled from the spec: `Reply = H(current_incoming_id, exit_code_i32)`;
the fixed platform hash is modelled by an injective pairing. -/
def MessageId.generate_reply (origin : MessageId) (exitCode : Int) : MessageId :=
  Nat.pair 2 (Nat.pair origin (exitCodeNat exitCode))

/-- `BTreeMap<u32, α>` lookup: association list kept sorted by strictly
ascending keys. -/
def mapGet (k : Nat) : List (Nat × α) → Option α
  | [] => none
  | (k', v') :: rest => if k = k' then some v' else mapGet k rest

/-- `BTreeMap<u32, α>` insert: keeps keys strictly ascending, replaces an
existing binding of the same key. -/
def mapInsert (k : Nat) (v : α) : List (Nat × α) → List (Nat × α)
  | [] => [(k, v)]
  | (k', v') :: rest =>
    if k < k' then (k, v) :: (k', v') :: rest
    else if k = k' then (k, v) :: rest
    else (k', v') :: mapInsert k v rest

/-- `BTreeSet<Nat>` membership. -/
def setMem (k : Nat) : List Nat → Bool
  | [] => false
  | x :: rest => k = x || setMem k rest

/-- `BTreeSet<Nat>` insert: keeps elements strictly ascending. -/
def setInsert (k : Nat) : List Nat → List Nat
  | [] => [k]
  | x :: rest =>
    if k < x then k :: x :: rest
    else if k = x then x :: rest
    else x :: setInsert k rest

/-- Modelled from the spec: the incoming message exposes its identifier,
source, payload, value, gas limit and optional reply context. -/
structure IncomingMessage where
  id : MessageId
  source : ProgramId
  payload : Payload
  gas_limit : Nat
  value : Nat
  reply : Option (MessageId × Int)
  deriving DecidableEq, Repr

/-- Modelled from the spec: an init packet carries the destination program
identifier to be created, a payload, a gas limit and a value. -/
structure InitPacket where
  destination : ProgramId
  payload : Payload
  gas_limit : Option Nat
  value : Nat
  deriving DecidableEq, Repr

/-- Modelled from the spec: a handle packet carries a destination, a
payload, a gas limit and a value; it supports `prepend`. -/
structure HandlePacket where
  destination : ProgramId
  payload : Payload
  gas_limit : Option Nat
  value : Nat
  deriving DecidableEq, Repr

/-- Modelled from the spec: `prepend(bytes)` splices bytes at the front of
the packet's payload. -/
def HandlePacket.prepend (p : HandlePacket) (data : Payload) : HandlePacket :=
  { p with payload := data ++ p.payload }

/-- Modelled from the spec: a reply packet carries a payload, an exit code
and a value; it supports `prepend`. -/
structure ReplyPacket where
  payload : Payload
  exit_code : Int
  value : Nat
  deriving DecidableEq, Repr

/-- Modelled from the spec: `prepend(bytes)` splices bytes at the front of
the packet's payload. -/
def ReplyPacket.prepend (p : ReplyPacket) (data : Payload) : ReplyPacket :=
  { p with payload := data ++ p.payload }

/-- Modelled from the spec: an init message, built from an init packet and
a generated identifier. -/
structure InitMessage where
  id : MessageId
  destination : ProgramId
  payload : Payload
  gas_limit : Option Nat
  value : Nat
  deriving DecidableEq, Repr

/-- Modelled from the spec: `InitMessage::from_packet`. -/
def InitMessage.from_packet (id : MessageId) (p : InitPacket) : InitMessage :=
  ⟨id, p.destination, p.payload, p.gas_limit, p.value⟩

/-- Modelled from the spec: a handle message, built from a handle packet
and a generated identifier. -/
structure HandleMessage where
  id : MessageId
  destination : ProgramId
  payload : Payload
  gas_limit : Option Nat
  value : Nat
  deriving DecidableEq, Repr

/-- Modelled from the spec: `HandleMessage::from_packet`. -/
def HandleMessage.from_packet (id : MessageId) (p : HandlePacket) : HandleMessage :=
  ⟨id, p.destination, p.payload, p.gas_limit, p.value⟩

/-- Modelled from the spec: a reply message routes to the source of the
incoming message; it carries the reply exit code. -/
structure ReplyMessage where
  id : MessageId
  payload : Payload
  value : Nat
  exit_code : Int
  deriving DecidableEq, Repr

/-- Modelled from the spec: `ReplyMessage::from_packet`. -/
def ReplyMessage.from_packet (id : MessageId) (p : ReplyPacket) : ReplyMessage :=
  ⟨id, p.payload, p.value, p.exit_code⟩

/-- Modelled from the spec: dispatch kinds Init / Handle / Reply. -/
inductive DispatchKind where
  | Init
  | Handle
  | Reply
  deriving DecidableEq, Repr

/-- Modelled from the spec: the uniform message record carried by a
dispatch: identifier, emitting program, destination, payload, value, and
for replies the `(origin message id, exit code)` linkage. -/
structure StoredMessage where
  id : MessageId
  source : ProgramId
  destination : ProgramId
  payload : Payload
  gas_limit : Option Nat
  value : Nat
  reply : Option (MessageId × Int)
  deriving DecidableEq, Repr

/-- Modelled from the spec: a dispatch is a kind plus the carried message. -/
structure Dispatch where
  kind : DispatchKind
  message : StoredMessage
  deriving DecidableEq, Repr

/-- Modelled from the spec: `InitMessage::into_dispatch(program_id)`. -/
def InitMessage.into_dispatch (m : InitMessage) (source_program : ProgramId) : Dispatch :=
  ⟨.Init, ⟨m.id, source_program, m.destination, m.payload, m.gas_limit, m.value, none⟩⟩

/-- Modelled from the spec: `HandleMessage::into_dispatch(program_id)`. -/
def HandleMessage.into_dispatch (m : HandleMessage) (source_program : ProgramId) : Dispatch :=
  ⟨.Handle, ⟨m.id, source_program, m.destination, m.payload, m.gas_limit, m.value, none⟩⟩

/-- Modelled from the spec: `ReplyMessage::into_dispatch(program_id, source, origin_msg_id)`;
the dispatch routes to the source of the incoming message and carries the
`(origin message id, exit code)` linkage. -/
def ReplyMessage.into_dispatch (m : ReplyMessage) (source_program : ProgramId)
    (destination : ProgramId) (origin_msg_id : MessageId) : Dispatch :=
  ⟨.Reply, ⟨m.id, source_program, destination, m.payload, none, m.value,
    some (origin_msg_id, m.exit_code)⟩⟩

/-- `OUTGOING_LIMIT` from `context.rs`. -/
def OUTGOING_LIMIT : Nat := 1024

/-- `ContextSettings` from `context.rs`. -/
structure ContextSettings where
  sending_fee : Nat
  outgoing_limit : Nat
  deriving DecidableEq, Repr

/-- `ContextSettings::new`. -/
def ContextSettings.new (sending_fee : Nat) (outgoing_limit : Nat) : ContextSettings :=
  ⟨sending_fee, outgoing_limit⟩

/-- `Default for ContextSettings`: `(0, OUTGOING_LIMIT)`. -/
def ContextSettings.mk_default : ContextSettings :=
  ContextSettings.new 0 OUTGOING_LIMIT

/-- `ContextOutcome` from `context.rs`. -/
structure ContextOutcome where
  init : List InitMessage
  handle : List HandleMessage
  reply : Option ReplyMessage
  awakening : List MessageId
  program_id : ProgramId
  source : ProgramId
  origin_msg_id : MessageId
  deriving DecidableEq, Repr

/-- `ContextOutcome::new`: vectors empty, reply absent. -/
def ContextOutcome.new (program_id : ProgramId) (source : ProgramId)
    (origin_msg_id : MessageId) : ContextOutcome :=
  ⟨[], [], none, [], program_id, source, origin_msg_id⟩

/-- `ContextOutcome::drain`: pushes init dispatches, then handle
dispatches, then the reply dispatch if present, and returns the awakening
list alongside. -/
def ContextOutcome.drain (o : ContextOutcome) : List Dispatch × List MessageId :=
  let dispatches : List Dispatch := []
  let dispatches := o.init.foldl (fun acc msg => acc ++ [msg.into_dispatch o.program_id]) dispatches
  let dispatches := o.handle.foldl (fun acc msg => acc ++ [msg.into_dispatch o.program_id]) dispatches
  let dispatches :=
    match o.reply with
    | some msg => dispatches ++ [msg.into_dispatch o.program_id o.source o.origin_msg_id]
    | none => dispatches
  (dispatches, o.awakening)

/-- `ContextStore` from `context.rs`: `outgoing` is a `BTreeMap<u32, Option<Payload>>`
(sorted association list), `initialized` and `awaken` are `BTreeSet`s
(sorted lists). -/
structure ContextStore where
  outgoing : List (Nat × Option Payload)
  reply : Option Payload
  initialized : List ProgramId
  awaken : List MessageId
  reply_sent : Bool
  deriving DecidableEq, Repr

/-- `Default for ContextStore`: everything empty, `reply_sent = false`. -/
def ContextStore.mk_default : ContextStore :=
  ⟨[], none, [], [], false⟩

/-- `MessageContext` from `context.rs`. -/
structure MessageContext where
  current : IncomingMessage
  outcome : ContextOutcome
  store : ContextStore
  settings : ContextSettings
  deriving DecidableEq, Repr

/-- `MessageContext::new_with_settings`. -/
def MessageContext.new_with_settings (message : IncomingMessage) (program_id : ProgramId)
    (store : Option ContextStore) (settings : ContextSettings) : MessageContext :=
  { outcome := ContextOutcome.new program_id message.source message.id
    current := message
    store := store.getD ContextStore.mk_default
    settings := settings }

/-- `MessageContext::new`: default settings. -/
def MessageContext.new (message : IncomingMessage) (program_id : ProgramId)
    (store : Option ContextStore) : MessageContext :=
  MessageContext.new_with_settings message program_id store ContextSettings.mk_default

/-- `MessageError` from `core-errors` (the variants signalled by the
message context). -/
inductive MessageError where
  | LimitExceeded
  | DuplicateReply
  | DuplicateWaking
  | LateAccess
  | OutOfBounds
  | DuplicateInit
  | NotEnoughGas
  | InsufficientValue (message_value : Nat) (existential_deposit : Nat)
  | NotEnoughValue (message_value : Nat) (value_left : Nat)
  deriving DecidableEq, Repr

/-- `MessageContext::init_program`.  Checks the duplicate-destination set,
then the outgoing limit, then inserts the tombstoned slot, records the
destination and appends the init message. -/
def MessageContext.init_program (ctx : MessageContext) (packet : InitPacket) :
    Except MessageError (ProgramId × MessageId) × MessageContext :=
  let program_id := packet.destination
  if setMem program_id ctx.store.initialized then
    (.error .DuplicateInit, ctx)
  else
    let last := ctx.store.outgoing.length
    if last ≥ ctx.settings.outgoing_limit then
      (.error .LimitExceeded, ctx)
    else
      let message_id := MessageId.generate_outgoing ctx.current.id last
      let message := InitMessage.from_packet message_id packet
      (.ok (program_id, message_id),
        { ctx with
          store := { ctx.store with
            outgoing := mapInsert last none ctx.store.outgoing
            initialized := setInsert program_id ctx.store.initialized }
          outcome := { ctx.outcome with init := ctx.outcome.init ++ [message] } })

/-- `MessageContext::send_commit`.  `get_mut` then `take()`: a `Some`
buffer is consumed (the slot becomes the tombstone `None`), prepended to
the packet, and the handle message is appended; a tombstoned slot fails
`LateAccess`, a missing slot fails `OutOfBounds`. -/
def MessageContext.send_commit (ctx : MessageContext) (handle : Nat) (packet : HandlePacket) :
    Except MessageError MessageId × MessageContext :=
  match mapGet handle ctx.store.outgoing with
  | some (some data) =>
      let packet := packet.prepend data
      let message_id := MessageId.generate_outgoing ctx.current.id handle
      let message := HandleMessage.from_packet message_id packet
      (.ok message_id,
        { ctx with
          store := { ctx.store with outgoing := mapInsert handle none ctx.store.outgoing }
          outcome := { ctx.outcome with handle := ctx.outcome.handle ++ [message] } })
  | some none => (.error .LateAccess, ctx)
  | none => (.error .OutOfBounds, ctx)

/-- `MessageContext::send_init`.  Reserves the next handle with an empty
buffer, unless the outgoing limit is reached. -/
def MessageContext.send_init (ctx : MessageContext) :
    Except MessageError Nat × MessageContext :=
  let last := ctx.store.outgoing.length
  if last < ctx.settings.outgoing_limit then
    (.ok last,
      { ctx with
        store := { ctx.store with outgoing := mapInsert last (some []) ctx.store.outgoing } })
  else
    (.error .LimitExceeded, ctx)

/-- `MessageContext::send_push`.  Appends to an open buffer; a tombstoned
slot fails `LateAccess`, a missing slot fails `OutOfBounds`. -/
def MessageContext.send_push (ctx : MessageContext) (handle : Nat) (buffer : List Nat) :
    Except MessageError Unit × MessageContext :=
  match mapGet handle ctx.store.outgoing with
  | some (some data) =>
      (.ok (),
        { ctx with
          store := { ctx.store with
            outgoing := mapInsert handle (some (data ++ buffer)) ctx.store.outgoing } })
  | some none => (.error .LateAccess, ctx)
  | none => (.error .OutOfBounds, ctx)

/-- `MessageContext::reply_commit`.  Takes the accumulated reply buffer
(absent treated as empty), prepends it to the packet, stores the reply
message in the outcome and latches `reply_sent`; fails `DuplicateReply`
once the latch is set. -/
def MessageContext.reply_commit (ctx : MessageContext) (packet : ReplyPacket) :
    Except MessageError MessageId × MessageContext :=
  if !ctx.store.reply_sent then
    let data := ctx.store.reply.getD []
    let packet := packet.prepend data
    let message_id := MessageId.generate_reply ctx.current.id packet.exit_code
    let message := ReplyMessage.from_packet message_id packet
    (.ok message_id,
      { ctx with
        store := { ctx.store with reply := none, reply_sent := true }
        outcome := { ctx.outcome with reply := some message } })
  else
    (.error .DuplicateReply, ctx)

/-- `MessageContext::reply_push`.  Lazily creates the reply buffer and
appends to it; fails `LateAccess` once `reply_sent` is latched. -/
def MessageContext.reply_push (ctx : MessageContext) (buffer : List Nat) :
    Except MessageError Unit × MessageContext :=
  if !ctx.store.reply_sent then
    (.ok (),
      { ctx with
        store := { ctx.store with reply := some (ctx.store.reply.getD [] ++ buffer) } })
  else
    (.error .LateAccess, ctx)

/-- `MessageContext::wake`.  `BTreeSet::insert` returns whether the id was
newly inserted; a fresh id is recorded in both the store set and the
outcome list, a repeated id fails `DuplicateWaking`. -/
def MessageContext.wake (ctx : MessageContext) (waker_id : MessageId) :
    Except MessageError Unit × MessageContext :=
  if setMem waker_id ctx.store.awaken then
    (.error .DuplicateWaking, ctx)
  else
    (.ok (),
      { ctx with
        store := { ctx.store with awaken := setInsert waker_id ctx.store.awaken }
        outcome := { ctx.outcome with awakening := ctx.outcome.awakening ++ [waker_id] } })

/-- `MessageContext::drain`: destructs the context into `(outcome, store)`. -/
def MessageContext.drain (ctx : MessageContext) : ContextOutcome × ContextStore :=
  (ctx.outcome, ctx.store)

/-- One mutating call against a `MessageContext`, used to quantify over
operation sequences. -/
inductive Op where
  | initProgram (packet : InitPacket)
  | sendInit
  | sendPush (handle : Nat) (buffer : List Nat)
  | sendCommit (handle : Nat) (packet : HandlePacket)
  | replyPush (buffer : List Nat)
  | replyCommit (packet : ReplyPacket)
  | wake (waker_id : MessageId)
  deriving DecidableEq, Repr

/-- Success value of an operation (the union of the operations' return
types). -/
inductive OpValue where
  | initProgram (program_id : ProgramId) (message_id : MessageId)
  | handle (h : Nat)
  | message (m : MessageId)
  | unit
  deriving DecidableEq, Repr

/-- Run one operation against a context, returning its result and the
context afterwards. -/
def applyOp (ctx : MessageContext) : Op → Except MessageError OpValue × MessageContext
  | .initProgram p =>
      let (r, c) := ctx.init_program p
      (r.map fun x => .initProgram x.1 x.2, c)
  | .sendInit =>
      let (r, c) := ctx.send_init
      (r.map fun h => .handle h, c)
  | .sendPush h buf =>
      let (r, c) := ctx.send_push h buf
      (r.map fun _ => .unit, c)
  | .sendCommit h p =>
      let (r, c) := ctx.send_commit h p
      (r.map fun m => .message m, c)
  | .replyPush buf =>
      let (r, c) := ctx.reply_push buf
      (r.map fun _ => .unit, c)
  | .replyCommit p =>
      let (r, c) := ctx.reply_commit p
      (r.map fun m => .message m, c)
  | .wake id =>
      let (r, c) := ctx.wake id
      (r.map fun _ => .unit, c)

/-- Run a sequence of operations, threading the context. -/
def runOps (ctx : MessageContext) : List Op → MessageContext
  | [] => ctx
  | op :: ops => runOps (applyOp ctx op).2 ops

/-- Whether an `Except` value is an error. -/
def isErr : Except ε α → Bool
  | .error _ => true
  | .ok _ => false

/-- Whether an operation is an allocation (`init_program` or `send_init`). -/
def Op.isAlloc : Op → Bool
  | .initProgram _ => true
  | .sendInit => true
  | _ => false

/-- Number of allocation operations (`init_program` / `send_init`) in a run
that return successfully. -/
def okAllocCount (ctx : MessageContext) : List Op → Nat
  | [] => 0
  | op :: ops =>
    let (r, c) := applyOp ctx op
    (if op.isAlloc && !isErr r then 1 else 0) + okAllocCount c ops

/-- Whether an operation is a `reply_commit`. -/
def Op.isReplyCommit : Op → Bool
  | .replyCommit _ => true
  | _ => false

/-- Number of `reply_commit` operations in a run that return successfully. -/
def okReplyCount (ctx : MessageContext) : List Op → Nat
  | [] => 0
  | op :: ops =>
    let (r, c) := applyOp ctx op
    (if op.isReplyCommit && !isErr r then 1 else 0) + okReplyCount c ops

/-- Concrete incoming message used in closed instantiations (id 3, source 4,
payload `[1, 2]`), after the repository's own `message_context_api` test. -/
def msgW : IncomingMessage := ⟨3, 4, [1, 2], 0, 0, none⟩

/-- Concrete init packet with destination 77 used in closed instantiations. -/
def pktW : InitPacket := ⟨77, [], none, 0⟩

/-- Concrete empty handle packet used in closed instantiations. -/
def hpktW : HandlePacket := ⟨0, [], none, 0⟩

/-- Concrete reply packet (payload `[0, 0]`, exit code 0) used in closed
instantiations. -/
def rpktW : ReplyPacket := ⟨[0, 0], 0, 0⟩

/-- Fresh context over `msgW` with default settings. -/
def ctxW : MessageContext := MessageContext.new msgW 3 none

/-- Context over `msgW` resumed with a store whose reply latch is already
set. -/
def ctxResumedReply : MessageContext :=
  MessageContext.new msgW 3 (some ⟨[], none, [], [], true⟩)

/-- Fresh context over `msgW` with `outgoing_limit = 1`. -/
def ctxLimitOne : MessageContext :=
  MessageContext.new_with_settings msgW 3 none (ContextSettings.new 0 1)

/-- Fresh context over `msgW` with `outgoing_limit = 0`. -/
def ctxLimitZero : MessageContext :=
  MessageContext.new_with_settings msgW 3 none (ContextSettings.new 0 0)

/-- Context over `msgW` resumed with a gapped outgoing map (open slots at
keys 0 and 2, nothing at key 1). -/
def ctxGapped : MessageContext :=
  MessageContext.new msgW 3 (some ⟨[(0, some []), (2, some [])], none, [], [], false⟩)

/-- Folding a push over a list appends the mapped list. -/
theorem foldl_push_eq_map (f : α → β) (l : List α) :
    ∀ acc : List β, l.foldl (fun a x => a ++ [f x]) acc = acc ++ l.map f := by
  induction l with
  | nil => intro acc; simp
  | cons x xs ih => intro acc; simp [ih, List.append_assoc]

/-- `ContextOutcome::drain` expressed as a concatenation. -/
theorem drain_eq_concat (o : ContextOutcome) :
    o.drain = (o.init.map (fun m => m.into_dispatch o.program_id)
        ++ o.handle.map (fun m => m.into_dispatch o.program_id)
        ++ (o.reply.map (fun m => m.into_dispatch o.program_id o.source o.origin_msg_id)).toList,
      o.awakening) := by
  cases hr : o.reply <;>
    simp [ContextOutcome.drain, foldl_push_eq_map, hr, List.append_assoc]

/-- Lookup after inserting the same key. -/
theorem mapGet_mapInsert_self (k : Nat) (v : α) (m : List (Nat × α)) :
    mapGet k (mapInsert k v m) = some v := by
  induction m with
  | nil => simp [mapInsert, mapGet]
  | cons p rest ih =>
    obtain ⟨k', v'⟩ := p
    by_cases h1 : k < k'
    · simp [mapInsert, h1, mapGet]
    · by_cases h2 : k = k'
      · simp [mapInsert, h1, h2, mapGet]
      · simp [mapInsert, h1, h2, mapGet, ih]

/-- Lookup after inserting a different key. -/
theorem mapGet_mapInsert_ne (j k : Nat) (v : α) (m : List (Nat × α)) (h : j ≠ k) :
    mapGet j (mapInsert k v m) = mapGet j m := by
  induction m with
  | nil => simp [mapInsert, mapGet, h]
  | cons p rest ih =>
    obtain ⟨k', v'⟩ := p
    by_cases h1 : k < k'
    · simp [mapInsert, h1, mapGet, h]
    · by_cases h2 : k = k'
      · subst h2
        simp [mapInsert, h1, mapGet, h]
      · simp [mapInsert, h1, h2, mapGet, ih]

/-- Insertion never shrinks the map. -/
theorem length_mapInsert_ge (k : Nat) (v : α) (m : List (Nat × α)) :
    m.length ≤ (mapInsert k v m).length := by
  induction m with
  | nil => simp [mapInsert]
  | cons p rest ih =>
    obtain ⟨k', v'⟩ := p
    by_cases h1 : k < k'
    · simp [mapInsert, h1]
    · by_cases h2 : k = k'
      · simp [mapInsert, h1, h2]
      · simpa [mapInsert, h1, h2] using ih

/-- Inserting an absent key grows the map by one. -/
theorem length_mapInsert_of_not_mem (k : Nat) (v : α) (m : List (Nat × α))
    (h : mapGet k m = none) : (mapInsert k v m).length = m.length + 1 := by
  induction m with
  | nil => simp [mapInsert]
  | cons p rest ih =>
    obtain ⟨k', v'⟩ := p
    by_cases h1 : k < k'
    · simp [mapInsert, h1]
    · by_cases h2 : k = k'
      · simp [mapGet, h2] at h
      · have h' : mapGet k rest = none := by simpa [mapGet, h2] using h
        simp [mapInsert, h1, h2, ih h']

/-- A successful lookup means the key is present. -/
theorem mem_keys_of_mapGet_some (k : Nat) (w : α) (m : List (Nat × α))
    (h : mapGet k m = some w) : k ∈ m.map Prod.fst := by
  induction m with
  | nil => simp [mapGet] at h
  | cons p rest ih =>
    obtain ⟨k', v'⟩ := p
    by_cases h2 : k = k'
    · simp [h2]
    · have h' : mapGet k rest = some w := by simpa [mapGet, h2] using h
      simp [ih h']

/-- Replacing the value of a present key in a key-sorted map keeps the key
list. -/
theorem keys_mapInsert_of_mem (k : Nat) (v w : α) (m : List (Nat × α))
    (hs : m.Pairwise (fun p q => p.1 < q.1)) (h : mapGet k m = some w) :
    (mapInsert k v m).map Prod.fst = m.map Prod.fst := by
  induction m with
  | nil => simp [mapGet] at h
  | cons p rest ih =>
    obtain ⟨k', v'⟩ := p
    rw [List.pairwise_cons] at hs
    by_cases h2 : k = k'
    · have h1 : ¬ k < k' := by omega
      simp [mapInsert, h1, h2]
    · have h' : mapGet k rest = some w := by simpa [mapGet, h2] using h
      have hmem : k ∈ rest.map Prod.fst := mem_keys_of_mapGet_some k w rest h'
      obtain ⟨q, hq, hqk⟩ := List.mem_map.mp hmem
      have hk' : k' < k := by
        have := hs.1 q hq
        omega
      have h1 : ¬ k < k' := by omega
      simp [mapInsert, h1, h2, ih hs.2 h']

/-- Inserting a key greater than every present key appends at the end. -/
theorem mapInsert_append_of_lt (k : Nat) (v : α) (m : List (Nat × α))
    (h : ∀ p ∈ m, p.1 < k) : mapInsert k v m = m ++ [(k, v)] := by
  induction m with
  | nil => simp [mapInsert]
  | cons p rest ih =>
    obtain ⟨k', v'⟩ := p
    have hk : k' < k := h (k', v') (by simp)
    have h1 : ¬ k < k' := by omega
    have h2 : k ≠ k' := by omega
    simp [mapInsert, h1, h2, ih (fun q hq => h q (by simp [hq]))]

/-- Membership after a sorted-set insertion. -/
theorem setMem_setInsert (j k : Nat) (s : List Nat) :
    setMem j (setInsert k s) = (decide (j = k) || setMem j s) := by
  induction s with
  | nil => simp [setInsert, setMem]
  | cons x rest ih =>
    by_cases h1 : k < x
    · simp [setInsert, h1, setMem]
    · by_cases h2 : k = x
      · subst h2
        by_cases hjk : j = k <;> simp [setInsert, h1, setMem, hjk]
      · by_cases hjx : j = x <;> simp [setInsert, h1, h2, setMem, ih, hjx]

/-- `applyOp` on `initProgram` unfolds to `init_program`. -/
theorem applyOp_initProgram (c : MessageContext) (p : InitPacket) :
    applyOp c (.initProgram p)
      = ((c.init_program p).1.map (fun x => OpValue.initProgram x.1 x.2),
        (c.init_program p).2) := rfl

/-- `applyOp` on `sendInit` unfolds to `send_init`. -/
theorem applyOp_sendInit (c : MessageContext) :
    applyOp c .sendInit
      = ((c.send_init).1.map (fun h => OpValue.handle h), (c.send_init).2) := rfl

/-- `applyOp` on `sendPush` unfolds to `send_push`. -/
theorem applyOp_sendPush (c : MessageContext) (h : Nat) (buf : List Nat) :
    applyOp c (.sendPush h buf)
      = ((c.send_push h buf).1.map (fun _ => OpValue.unit), (c.send_push h buf).2) := rfl

/-- `applyOp` on `sendCommit` unfolds to `send_commit`. -/
theorem applyOp_sendCommit (c : MessageContext) (h : Nat) (p : HandlePacket) :
    applyOp c (.sendCommit h p)
      = ((c.send_commit h p).1.map (fun m => OpValue.message m), (c.send_commit h p).2) := rfl

/-- `applyOp` on `replyPush` unfolds to `reply_push`. -/
theorem applyOp_replyPush (c : MessageContext) (buf : List Nat) :
    applyOp c (.replyPush buf)
      = ((c.reply_push buf).1.map (fun _ => OpValue.unit), (c.reply_push buf).2) := rfl

/-- `applyOp` on `replyCommit` unfolds to `reply_commit`. -/
theorem applyOp_replyCommit (c : MessageContext) (p : ReplyPacket) :
    applyOp c (.replyCommit p)
      = ((c.reply_commit p).1.map (fun m => OpValue.message m), (c.reply_commit p).2) := rfl

/-- `applyOp` on `wake` unfolds to `wake`. -/
theorem applyOp_wake (c : MessageContext) (id : MessageId) :
    applyOp c (.wake id)
      = ((c.wake id).1.map (fun _ => OpValue.unit), (c.wake id).2) := rfl

/-- `Except.map` preserves error-ness. -/
theorem isErr_map (f : α → β) (r : Except ε α) : isErr (r.map f) = isErr r := by
  cases r <;> rfl

/-- `init_program` either succeeds or leaves the context untouched. -/
theorem init_program_ok_or_id (c : MessageContext) (p : InitPacket) :
    isErr (c.init_program p).1 = false ∨ (c.init_program p).2 = c := by
  simp only [MessageContext.init_program]
  split_ifs <;> simp [isErr]

/-- `send_init` either succeeds or leaves the context untouched. -/
theorem send_init_ok_or_id (c : MessageContext) :
    isErr (c.send_init).1 = false ∨ (c.send_init).2 = c := by
  simp only [MessageContext.send_init]
  split_ifs <;> simp [isErr]

/-- `send_push` either succeeds or leaves the context untouched. -/
theorem send_push_ok_or_id (c : MessageContext) (h : Nat) (buf : List Nat) :
    isErr (c.send_push h buf).1 = false ∨ (c.send_push h buf).2 = c := by
  simp only [MessageContext.send_push]
  rcases hm : mapGet h c.store.outgoing with _ | (_ | d) <;> simp [hm, isErr]

/-- `send_commit` either succeeds or leaves the context untouched. -/
theorem send_commit_ok_or_id (c : MessageContext) (h : Nat) (p : HandlePacket) :
    isErr (c.send_commit h p).1 = false ∨ (c.send_commit h p).2 = c := by
  simp only [MessageContext.send_commit]
  rcases hm : mapGet h c.store.outgoing with _ | (_ | d) <;> simp [hm, isErr]

/-- `reply_push` either succeeds or leaves the context untouched. -/
theorem reply_push_ok_or_id (c : MessageContext) (buf : List Nat) :
    isErr (c.reply_push buf).1 = false ∨ (c.reply_push buf).2 = c := by
  simp only [MessageContext.reply_push]
  split_ifs <;> simp [isErr]

/-- `reply_commit` either succeeds or leaves the context untouched. -/
theorem reply_commit_ok_or_id (c : MessageContext) (p : ReplyPacket) :
    isErr (c.reply_commit p).1 = false ∨ (c.reply_commit p).2 = c := by
  simp only [MessageContext.reply_commit]
  split_ifs <;> simp [isErr]

/-- `wake` either succeeds or leaves the context untouched. -/
theorem wake_ok_or_id (c : MessageContext) (id : MessageId) :
    isErr (c.wake id).1 = false ∨ (c.wake id).2 = c := by
  simp only [MessageContext.wake]
  split_ifs <;> simp [isErr]

/-- Every operation either succeeds or leaves the context untouched. -/
theorem applyOp_ok_or_id (c : MessageContext) (op : Op) :
    isErr (applyOp c op).1 = false ∨ (applyOp c op).2 = c := by
  cases op with
  | initProgram p =>
      rw [applyOp_initProgram]
      simpa [isErr_map] using init_program_ok_or_id c p
  | sendInit =>
      rw [applyOp_sendInit]
      simpa [isErr_map] using send_init_ok_or_id c
  | sendPush h buf =>
      rw [applyOp_sendPush]
      simpa [isErr_map] using send_push_ok_or_id c h buf
  | sendCommit h p =>
      rw [applyOp_sendCommit]
      simpa [isErr_map] using send_commit_ok_or_id c h p
  | replyPush buf =>
      rw [applyOp_replyPush]
      simpa [isErr_map] using reply_push_ok_or_id c buf
  | replyCommit p =>
      rw [applyOp_replyCommit]
      simpa [isErr_map] using reply_commit_ok_or_id c p
  | wake id =>
      rw [applyOp_wake]
      simpa [isErr_map] using wake_ok_or_id c id

/-- Operations never change the settings. -/
theorem settings_applyOp (c : MessageContext) (op : Op) :
    (applyOp c op).2.settings = c.settings := by
  cases op <;>
    simp only [applyOp_initProgram, applyOp_sendInit, applyOp_sendPush, applyOp_sendCommit,
      applyOp_replyPush, applyOp_replyCommit, applyOp_wake, MessageContext.init_program,
      MessageContext.send_init, MessageContext.send_push, MessageContext.send_commit,
      MessageContext.reply_push, MessageContext.reply_commit, MessageContext.wake] <;>
    (repeat' split) <;> rfl

/-- Operations never change the incoming message. -/
theorem current_applyOp (c : MessageContext) (op : Op) :
    (applyOp c op).2.current = c.current := by
  cases op <;>
    simp only [applyOp_initProgram, applyOp_sendInit, applyOp_sendPush, applyOp_sendCommit,
      applyOp_replyPush, applyOp_replyCommit, applyOp_wake, MessageContext.init_program,
      MessageContext.send_init, MessageContext.send_push, MessageContext.send_commit,
      MessageContext.reply_push, MessageContext.reply_commit, MessageContext.wake] <;>
    (repeat' split) <;> rfl

/-- A property preserved by every single operation is preserved by every
run. -/
theorem runOps_preserve (P : MessageContext → Prop)
    (step : ∀ c op, P c → P (applyOp c op).2) (ops : List Op) :
    ∀ c : MessageContext, P c → P (runOps c ops) := by
  induction ops with
  | nil => intro c h; exact h
  | cons op ops ih => intro c h; exact ih _ (step c op h)

/-- Running the empty sequence is the identity. -/
theorem runOps_nil (c : MessageContext) : runOps c [] = c := rfl

/-- Running a cons threads the head operation first. -/
theorem runOps_cons (c : MessageContext) (op : Op) (ops : List Op) :
    runOps c (op :: ops) = runOps (applyOp c op).2 ops := rfl

/-- Unfolding of the successful-allocation counter on a cons. -/
theorem okAllocCount_cons (c : MessageContext) (op : Op) (ops : List Op) :
    okAllocCount c (op :: ops)
      = (if op.isAlloc && !isErr (applyOp c op).1 then 1 else 0)
        + okAllocCount (applyOp c op).2 ops := rfl

/-- Unfolding of the successful-reply counter on a cons. -/
theorem okReplyCount_cons (c : MessageContext) (op : Op) (ops : List Op) :
    okReplyCount c (op :: ops)
      = (if op.isReplyCommit && !isErr (applyOp c op).1 then 1 else 0)
        + okReplyCount (applyOp c op).2 ops := rfl

/-- A run never changes the settings. -/
theorem settings_runOps (c : MessageContext) (ops : List Op) :
    (runOps c ops).settings = c.settings :=
  runOps_preserve (fun x => x.settings = c.settings)
    (fun x op hx => (settings_applyOp x op).trans hx) ops c rfl

/-- Every operation keeps `outcome.reply.isSome = store.reply_sent` in
step. -/
theorem reply_equiv_step (c : MessageContext) (op : Op)
    (h : c.outcome.reply.isSome = c.store.reply_sent) :
    (applyOp c op).2.outcome.reply.isSome = (applyOp c op).2.store.reply_sent := by
  cases op <;>
    simp only [applyOp_initProgram, applyOp_sendInit, applyOp_sendPush, applyOp_sendCommit,
      applyOp_replyPush, applyOp_replyCommit, applyOp_wake, MessageContext.init_program,
      MessageContext.send_init, MessageContext.send_push, MessageContext.send_commit,
      MessageContext.reply_push, MessageContext.reply_commit, MessageContext.wake] <;>
    (repeat' split) <;> simp_all

/-- Every operation only appends to the outcome's init, handle and
awakening lists. -/
theorem outcome_append_step (c : MessageContext) (op : Op) :
    ((applyOp c op).2.outcome.init = c.outcome.init
        ∨ ∃ m, (applyOp c op).2.outcome.init = c.outcome.init ++ [m])
      ∧ ((applyOp c op).2.outcome.handle = c.outcome.handle
        ∨ ∃ m, (applyOp c op).2.outcome.handle = c.outcome.handle ++ [m])
      ∧ ((applyOp c op).2.outcome.awakening = c.outcome.awakening
        ∨ ∃ i, (applyOp c op).2.outcome.awakening = c.outcome.awakening ++ [i]) := by
  cases op <;>
    simp only [applyOp_initProgram, applyOp_sendInit, applyOp_sendPush, applyOp_sendCommit,
      applyOp_replyPush, applyOp_replyCommit, applyOp_wake, MessageContext.init_program,
      MessageContext.send_init, MessageContext.send_push, MessageContext.send_commit,
      MessageContext.reply_push, MessageContext.reply_commit, MessageContext.wake] <;>
    (repeat' split) <;> simp

/-- C1: determinism — two runs with equal incoming message, program id,
initial store, settings and operation sequence produce equal
`(ContextOutcome, ContextStore)` pairs after drain, and in particular
equal dispatch lists. -/
theorem run_determinism (m₁ m₂ : IncomingMessage) (p₁ p₂ : ProgramId)
    (s₁ s₂ : Option ContextStore) (t₁ t₂ : ContextSettings) (ops₁ ops₂ : List Op)
    (h : (m₁, p₁, s₁, t₁, ops₁) = (m₂, p₂, s₂, t₂, ops₂)) :
    (runOps (MessageContext.new_with_settings m₁ p₁ s₁ t₁) ops₁).drain
        = (runOps (MessageContext.new_with_settings m₂ p₂ s₂ t₂) ops₂).drain
      ∧ ((runOps (MessageContext.new_with_settings m₁ p₁ s₁ t₁) ops₁).drain.1).drain
        = ((runOps (MessageContext.new_with_settings m₂ p₂ s₂ t₂) ops₂).drain.1).drain := by
  simp only [Prod.mk.injEq] at h
  obtain ⟨h1, h2, h3, h4, h5⟩ := h
  subst h1
  subst h2
  subst h3
  subst h4
  subst h5
  exact ⟨rfl, rfl⟩

/-- Closed instance of `run_determinism`. -/
theorem run_determinism_witness :
    (runOps (MessageContext.new_with_settings msgW 3 none ContextSettings.mk_default)
          [Op.sendInit]).drain
        = (runOps (MessageContext.new_with_settings msgW 3 none ContextSettings.mk_default)
          [Op.sendInit]).drain
      ∧ ((runOps (MessageContext.new_with_settings msgW 3 none ContextSettings.mk_default)
          [Op.sendInit]).drain.1).drain
        = ((runOps (MessageContext.new_with_settings msgW 3 none ContextSettings.mk_default)
          [Op.sendInit]).drain.1).drain :=
  run_determinism msgW msgW 3 3 none none ContextSettings.mk_default ContextSettings.mk_default
    [Op.sendInit] [Op.sendInit] rfl

/-- C2 counterexample: a context resumed with a prior store whose
`reply_sent` flag is already set violates
`outcome.reply.is_some() ⇔ store.reply_sent` (already after the empty
operation sequence). -/
theorem reply_latch_equiv_counterexample :
    ¬ ((runOps ctxResumedReply []).outcome.reply.isSome
        = (runOps ctxResumedReply []).store.reply_sent) := by
  decide

/-- C2 (amended): for every context whose initial store — empty or resumed
— has `reply_sent = false`, after every operation sequence the outcome
carries a reply exactly when the store's reply latch is set. -/
theorem reply_latch_equiv (m : IncomingMessage) (pid : ProgramId)
    (s : Option ContextStore) (t : ContextSettings) (ops : List Op)
    (h : (s.getD ContextStore.mk_default).reply_sent = false) :
    (runOps (MessageContext.new_with_settings m pid s t) ops).outcome.reply.isSome
      = (runOps (MessageContext.new_with_settings m pid s t) ops).store.reply_sent := by
  refine runOps_preserve (fun x => x.outcome.reply.isSome = x.store.reply_sent)
    (fun c op hc => reply_equiv_step c op hc) ops _ ?_
  simp [MessageContext.new_with_settings, ContextOutcome.new, h]

/-- Closed instance of `reply_latch_equiv`. -/
theorem reply_latch_equiv_witness :
    (runOps (MessageContext.new_with_settings msgW 3 none ContextSettings.mk_default)
        [Op.replyCommit rpktW]).outcome.reply.isSome
      = (runOps (MessageContext.new_with_settings msgW 3 none ContextSettings.mk_default)
        [Op.replyCommit rpktW]).store.reply_sent :=
  reply_latch_equiv msgW 3 none ContextSettings.mk_default [Op.replyCommit rpktW] rfl

/-- C3: `ContextOutcome::drain` returns the dispatch list as the exact
concatenation — init dispatches, then handle dispatches, then the reply
dispatch if one was committed — with the awakening list alongside; and
each operation only ever appends (in success order) to the init, handle
and awakening lists. -/
theorem drain_dispatch_order :
    (∀ o : ContextOutcome,
      o.drain = (o.init.map (fun m => m.into_dispatch o.program_id)
          ++ o.handle.map (fun m => m.into_dispatch o.program_id)
          ++ (o.reply.map
              (fun m => m.into_dispatch o.program_id o.source o.origin_msg_id)).toList,
        o.awakening))
    ∧ (∀ (c : MessageContext) (op : Op),
        ((applyOp c op).2.outcome.init = c.outcome.init
            ∨ ∃ m, (applyOp c op).2.outcome.init = c.outcome.init ++ [m])
          ∧ ((applyOp c op).2.outcome.handle = c.outcome.handle
            ∨ ∃ m, (applyOp c op).2.outcome.handle = c.outcome.handle ++ [m])
          ∧ ((applyOp c op).2.outcome.awakening = c.outcome.awakening
            ∨ ∃ i, (applyOp c op).2.outcome.awakening = c.outcome.awakening ++ [i])) :=
  ⟨drain_eq_concat, outcome_append_step⟩

/-- C4: atomicity on error — an operation that returns an error leaves
both the store and the outcome exactly as they were before the call. -/
theorem atomic_on_error (c : MessageContext) (op : Op)
    (h : isErr (applyOp c op).1 = true) :
    (applyOp c op).2.store = c.store ∧ (applyOp c op).2.outcome = c.outcome := by
  rcases applyOp_ok_or_id c op with hok | hid
  · rw [hok] at h
    cases h
  · rw [hid]
    exact ⟨rfl, rfl⟩

/-- Closed instance of `atomic_on_error` (a `send_commit` on a missing
handle fails `OutOfBounds` and changes nothing). -/
theorem atomic_on_error_witness :
    isErr (applyOp ctxW (.sendCommit 0 hpktW)).1 = true
      ∧ ((applyOp ctxW (.sendCommit 0 hpktW)).2.store = ctxW.store
        ∧ (applyOp ctxW (.sendCommit 0 hpktW)).2.outcome = ctxW.outcome) :=
  ⟨by decide, atomic_on_error ctxW (.sendCommit 0 hpktW) (by decide)⟩

/-- Every operation keeps a below-length tombstoned outgoing slot
tombstoned: allocations insert at the current length, which stays above
the slot, and pushes/commits only consume open slots. -/
theorem outgoing_slot_none_step (L : Nat) (x : MessageContext) (op : Op)
    (h1 : mapGet L x.store.outgoing = some none)
    (h2 : L < x.store.outgoing.length) :
    mapGet L (applyOp x op).2.store.outgoing = some none
      ∧ L < (applyOp x op).2.store.outgoing.length := by
  have hins : ∀ (v : Option Payload),
      mapGet L (mapInsert x.store.outgoing.length v x.store.outgoing) = some none
        ∧ L < (mapInsert x.store.outgoing.length v x.store.outgoing).length := by
    intro v
    constructor
    · rw [mapGet_mapInsert_ne L x.store.outgoing.length v x.store.outgoing (by omega)]
      exact h1
    · exact lt_of_lt_of_le h2 (length_mapInsert_ge _ _ _)
  have hne : ∀ (handle : Nat) (d : Payload),
      mapGet handle x.store.outgoing = some (some d) → handle ≠ L := by
    intro handle d hm hEq
    subst hEq
    rw [h1] at hm
    cases hm
  have hrepl : ∀ (handle : Nat) (d : Payload) (v : Option Payload),
      mapGet handle x.store.outgoing = some (some d) →
      mapGet L (mapInsert handle v x.store.outgoing) = some none
        ∧ L < (mapInsert handle v x.store.outgoing).length := by
    intro handle d v hm
    constructor
    · rw [mapGet_mapInsert_ne L handle v x.store.outgoing (fun hEq => hne handle d hm hEq.symm)]
      exact h1
    · exact lt_of_lt_of_le h2 (length_mapInsert_ge _ _ _)
  cases op with
  | initProgram p =>
      rw [applyOp_initProgram]
      simp only [MessageContext.init_program]
      split_ifs
      · exact ⟨h1, h2⟩
      · exact ⟨h1, h2⟩
      · exact hins none
  | sendInit =>
      rw [applyOp_sendInit]
      simp only [MessageContext.send_init]
      split_ifs
      · exact hins (some [])
      · exact ⟨h1, h2⟩
  | sendPush handle buf =>
      rw [applyOp_sendPush]
      simp only [MessageContext.send_push]
      rcases hm : mapGet handle x.store.outgoing with _ | (_ | d)
      · exact ⟨h1, h2⟩
      · exact ⟨h1, h2⟩
      · exact hrepl handle d _ hm
  | sendCommit handle p =>
      rw [applyOp_sendCommit]
      simp only [MessageContext.send_commit]
      rcases hm : mapGet handle x.store.outgoing with _ | (_ | d)
      · exact ⟨h1, h2⟩
      · exact ⟨h1, h2⟩
      · exact hrepl handle d _ hm
  | replyPush buf =>
      rw [applyOp_replyPush]
      simp only [MessageContext.reply_push]
      split_ifs <;> exact ⟨h1, h2⟩
  | replyCommit p =>
      rw [applyOp_replyCommit]
      simp only [MessageContext.reply_commit]
      split_ifs <;> exact ⟨h1, h2⟩
  | wake id =>
      rw [applyOp_wake]
      simp only [MessageContext.wake]
      split_ifs <;> exact ⟨h1, h2⟩

/-- C5 counterexample: in a context resumed with a gapped outgoing map
(open slots at keys 0 and 2), `init_program` succeeds and allocates
`h = store.outgoing.len() = 2` — overwriting the existing slot — after
which a `send_init` re-opens slot 2, so a subsequent `send_push(2, _)`
returns Ok rather than LateAccess. -/
theorem init_tombstone_counterexample :
    ctxGapped.store.outgoing.length = 2
      ∧ isErr (ctxGapped.init_program pktW).1 = false
      ∧ ((runOps (ctxGapped.init_program pktW).2 [Op.sendInit]).send_push 2 [1]).1
          = .ok ()
      ∧ ¬ ((runOps (ctxGapped.init_program pktW).2 [Op.sendInit]).send_push 2 [1]).1
          = .error .LateAccess := by
  refine ⟨rfl, rfl, rfl, fun hc => ?_⟩
  rw [show ((runOps (ctxGapped.init_program pktW).2 [Op.sendInit]).send_push 2 [1]).1
      = Except.ok () from rfl] at hc
  cases hc

/-- C5 (amended): if at the moment of a successful `init_program` the
store has no binding at key `store.outgoing.len()` — true of every store
the API itself produces, whose handle keys are exactly
`{0, …, len − 1}` — then the allocated slot is born tombstoned (`None`)
and every subsequent `send_push` or `send_commit` on that handle, after
any further operations, returns LateAccess. -/
theorem init_tombstone (c : MessageContext) (p : InitPacket)
    (r : ProgramId × MessageId) (c' : MessageContext)
    (hfree : mapGet c.store.outgoing.length c.store.outgoing = none)
    (h : c.init_program p = (.ok r, c')) :
    mapGet c.store.outgoing.length c'.store.outgoing = some none
      ∧ ∀ (ops : List Op) (buf : List Nat) (pkt : HandlePacket),
        ((runOps c' ops).send_push c.store.outgoing.length buf).1 = .error .LateAccess
          ∧ ((runOps c' ops).send_commit c.store.outgoing.length pkt).1
              = .error .LateAccess := by
  have hc' : c'.store.outgoing = mapInsert c.store.outgoing.length none c.store.outgoing := by
    simp only [MessageContext.init_program] at h
    split_ifs at h
    · injection h with hA hB
      exact Except.noConfusion hA
    · injection h with hA hB
      exact Except.noConfusion hA
    · injection h with hA hB
      rw [← hB]
  have hbase1 : mapGet c.store.outgoing.length c'.store.outgoing = some none := by
    rw [hc']
    exact mapGet_mapInsert_self _ _ _
  have hbase2 : c.store.outgoing.length < c'.store.outgoing.length := by
    rw [hc', length_mapInsert_of_not_mem _ _ _ hfree]
    omega
  refine ⟨hbase1, fun ops buf pkt => ?_⟩
  have hP := runOps_preserve
    (fun x => mapGet c.store.outgoing.length x.store.outgoing = some none
      ∧ c.store.outgoing.length < x.store.outgoing.length)
    (fun x op hx => outgoing_slot_none_step c.store.outgoing.length x op hx.1 hx.2)
    ops c' ⟨hbase1, hbase2⟩
  constructor
  · simp only [MessageContext.send_push, hP.1]
  · simp only [MessageContext.send_commit, hP.1]

/-- Closed instance of `init_tombstone` over a fresh context. -/
theorem init_tombstone_witness :
    mapGet ctxW.store.outgoing.length ((ctxW.init_program pktW).2.store.outgoing)
        = some none
      ∧ ((runOps (ctxW.init_program pktW).2 [Op.sendInit]).send_push
          ctxW.store.outgoing.length [1]).1 = .error .LateAccess :=
  ⟨(init_tombstone ctxW pktW (77, MessageId.generate_outgoing 3 0)
      (ctxW.init_program pktW).2 rfl rfl).1,
    ((init_tombstone ctxW pktW (77, MessageId.generate_outgoing 3 0)
      (ctxW.init_program pktW).2 rfl rfl).2 [Op.sendInit] [1] hpktW).1⟩

/-- Every operation keeps the outgoing keys densely numbered, changes the
length exactly by its successful-allocation contribution, and keeps the
length within the limit. -/
theorem alloc_dense_step (x : MessageContext) (op : Op)
    (hd : x.store.outgoing.map Prod.fst = List.range x.store.outgoing.length)
    (hle : x.store.outgoing.length ≤ x.settings.outgoing_limit) :
    (applyOp x op).2.store.outgoing.map Prod.fst
        = List.range (applyOp x op).2.store.outgoing.length
      ∧ (applyOp x op).2.store.outgoing.length
          = x.store.outgoing.length
            + (if op.isAlloc && !isErr (applyOp x op).1 then 1 else 0)
      ∧ (applyOp x op).2.store.outgoing.length
          ≤ (applyOp x op).2.settings.outgoing_limit := by
  have hlt : ∀ q ∈ x.store.outgoing, q.1 < x.store.outgoing.length := by
    intro q hq
    have hq' : q.1 ∈ x.store.outgoing.map Prod.fst := List.mem_map_of_mem Prod.fst hq
    rw [hd] at hq'
    exact List.mem_range.mp hq'
  have hpair : x.store.outgoing.Pairwise (fun p q => p.1 < q.1) := by
    have h0 : (x.store.outgoing.map Prod.fst).Pairwise (· < ·) := by
      rw [hd]
      exact List.pairwise_lt_range _
    exact List.pairwise_map.mp h0
  have happ : ∀ v : Option Payload,
      mapInsert x.store.outgoing.length v x.store.outgoing
        = x.store.outgoing ++ [(x.store.outgoing.length, v)] :=
    fun v => mapInsert_append_of_lt _ _ _ hlt
  cases op with
  | initProgram p =>
      rw [applyOp_initProgram]
      by_cases hA : setMem p.destination x.store.initialized = true
      · refine ⟨?_, ?_, ?_⟩ <;>
          simp [MessageContext.init_program, hA, Op.isAlloc, isErr, isErr_map, Except.map, hd, hle]
      · by_cases hB : x.store.outgoing.length ≥ x.settings.outgoing_limit
        · refine ⟨?_, ?_, ?_⟩ <;>
            simp [MessageContext.init_program, hA, hB, Op.isAlloc, isErr, isErr_map, Except.map, hd, hle]
        · refine ⟨?_, ?_, ?_⟩
          · simp [MessageContext.init_program, hA, hB, happ, List.range_succ, hd]
          · simp [MessageContext.init_program, hA, hB, happ, Op.isAlloc, isErr, isErr_map, Except.map]
          · simp [MessageContext.init_program, hA, hB, happ]
            omega
  | sendInit =>
      rw [applyOp_sendInit]
      by_cases hA : x.store.outgoing.length < x.settings.outgoing_limit
      · refine ⟨?_, ?_, ?_⟩
        · simp [MessageContext.send_init, hA, happ, List.range_succ, hd]
        · simp [MessageContext.send_init, hA, happ, Op.isAlloc, isErr, isErr_map, Except.map]
        · simp [MessageContext.send_init, hA, happ]
          omega
      · refine ⟨?_, ?_, ?_⟩ <;>
          simp [MessageContext.send_init, hA, Op.isAlloc, isErr, isErr_map, Except.map, hd, hle]
  | sendPush handle buf =>
      rw [applyOp_sendPush]
      rcases hm : mapGet handle x.store.outgoing with _ | (_ | d)
      · refine ⟨?_, ?_, ?_⟩ <;>
          simp [MessageContext.send_push, hm, Op.isAlloc, isErr, isErr_map, Except.map, hd, hle]
      · refine ⟨?_, ?_, ?_⟩ <;>
          simp [MessageContext.send_push, hm, Op.isAlloc, isErr, isErr_map, Except.map, hd, hle]
      · have hk := keys_mapInsert_of_mem handle (some (d ++ buf)) (some d)
          x.store.outgoing hpair hm
        have hlen : (mapInsert handle (some (d ++ buf)) x.store.outgoing).length
            = x.store.outgoing.length := by
          have hc := congrArg List.length hk
          simpa using hc
        refine ⟨?_, ?_, ?_⟩ <;>
          simp [MessageContext.send_push, hm, Op.isAlloc, isErr, isErr_map, Except.map, hk, hlen, hd, hle]
  | sendCommit handle p =>
      rw [applyOp_sendCommit]
      rcases hm : mapGet handle x.store.outgoing with _ | (_ | d)
      · refine ⟨?_, ?_, ?_⟩ <;>
          simp [MessageContext.send_commit, hm, Op.isAlloc, isErr, isErr_map, Except.map, hd, hle]
      · refine ⟨?_, ?_, ?_⟩ <;>
          simp [MessageContext.send_commit, hm, Op.isAlloc, isErr, isErr_map, Except.map, hd, hle]
      · have hk := keys_mapInsert_of_mem handle none (some d) x.store.outgoing hpair hm
        have hlen : (mapInsert handle none x.store.outgoing).length
            = x.store.outgoing.length := by
          have hc := congrArg List.length hk
          simpa using hc
        refine ⟨?_, ?_, ?_⟩ <;>
          simp [MessageContext.send_commit, hm, Op.isAlloc, isErr, isErr_map, Except.map, hk, hlen, hd, hle]
  | replyPush buf =>
      rw [applyOp_replyPush]
      rcases hA : x.store.reply_sent <;> refine ⟨?_, ?_, ?_⟩ <;>
        simp [MessageContext.reply_push, hA, Op.isAlloc, isErr, isErr_map, Except.map, hd, hle]
  | replyCommit p =>
      rw [applyOp_replyCommit]
      rcases hA : x.store.reply_sent <;> refine ⟨?_, ?_, ?_⟩ <;>
        simp [MessageContext.reply_commit, hA, Op.isAlloc, isErr, isErr_map, Except.map, hd, hle]
  | wake id =>
      rw [applyOp_wake]
      rcases hA : setMem id x.store.awaken <;> refine ⟨?_, ?_, ?_⟩ <;>
        simp [MessageContext.wake, hA, Op.isAlloc, isErr, isErr_map, Except.map, hd, hle]

/-- Over a run from a densely-keyed, within-limit store, the outgoing
length tracks the number of successful allocations, stays densely keyed
and stays within the limit. -/
theorem alloc_count_run (ops : List Op) :
    ∀ x : MessageContext,
      x.store.outgoing.map Prod.fst = List.range x.store.outgoing.length →
      x.store.outgoing.length ≤ x.settings.outgoing_limit →
      ((runOps x ops).store.outgoing.length
          = x.store.outgoing.length + okAllocCount x ops
        ∧ (runOps x ops).store.outgoing.map Prod.fst
            = List.range (runOps x ops).store.outgoing.length
        ∧ (runOps x ops).store.outgoing.length
            ≤ (runOps x ops).settings.outgoing_limit) := by
  induction ops with
  | nil =>
      intro x hd hle
      exact ⟨rfl, hd, hle⟩
  | cons op ops ih =>
      intro x hd hle
      obtain ⟨sd, slen, sle⟩ := alloc_dense_step x op hd hle
      obtain ⟨ih1, ih2, ih3⟩ := ih (applyOp x op).2 sd sle
      refine ⟨?_, ?_, ?_⟩
      · rw [runOps_cons, okAllocCount_cons, ih1, slen, Nat.add_assoc]
      · rw [runOps_cons]
        exact ih2
      · rw [runOps_cons]
        exact ih3

/-- `send_init` fails `LimitExceeded` exactly when the outgoing length has
reached the limit. -/
theorem send_init_limit_iff (c : MessageContext) :
    (c.send_init).1 = .error .LimitExceeded
      ↔ c.store.outgoing.length ≥ c.settings.outgoing_limit := by
  simp only [MessageContext.send_init]
  split_ifs with hA
  · constructor
    · intro hE
      exact hE.elim
    · intro hge
      omega
  · constructor
    · intro _
      omega
    · intro _
      rfl

/-- `init_program` fails `LimitExceeded` exactly when the destination is
not already initialized and the outgoing length has reached the limit. -/
theorem init_program_limit_iff (c : MessageContext) (p : InitPacket) :
    (c.init_program p).1 = .error .LimitExceeded
      ↔ (setMem p.destination c.store.initialized = false
        ∧ c.store.outgoing.length ≥ c.settings.outgoing_limit) := by
  simp only [MessageContext.init_program]
  split_ifs with hA hB
  · constructor
    · intro hE
      injection hE with hE'
      cases hE'
    · intro hR
      rw [hA] at hR
      cases hR.1
  · exact ⟨fun _ => ⟨by simpa using hA, hB⟩, fun _ => rfl⟩
  · constructor
    · intro hE
      exact hE.elim
    · intro hR
      exact absurd hR.2 hB

/-- With a zero outgoing limit, no `init_program` ever succeeds, so the
initialized set stays empty over any run that starts with it empty. -/
theorem initialized_empty_of_limit_zero (ops : List Op) (x : MessageContext)
    (h0 : x.store.initialized = []) (hl : x.settings.outgoing_limit = 0) :
    (runOps x ops).store.initialized = [] := by
  refine (runOps_preserve
    (fun y => y.store.initialized = [] ∧ y.settings.outgoing_limit = 0)
    ?_ ops x ⟨h0, hl⟩).1
  intro c op hc
  refine ⟨?_, by rw [settings_applyOp]; exact hc.2⟩
  cases op with
  | initProgram p =>
      rw [applyOp_initProgram]
      by_cases hA : setMem p.destination c.store.initialized = true
      · rw [hc.1] at hA
        simp [setMem] at hA
      · by_cases hB : c.store.outgoing.length ≥ c.settings.outgoing_limit
        · simp [MessageContext.init_program, hA, hB, hc.1, setMem]
        · exfalso
          rw [hc.2] at hB
          omega
  | sendInit =>
      rw [applyOp_sendInit]
      by_cases hA : c.store.outgoing.length < c.settings.outgoing_limit <;>
        simp [MessageContext.send_init, hA, hc.1]
  | sendPush handle buf =>
      rw [applyOp_sendPush]
      rcases hm : mapGet handle c.store.outgoing with _ | (_ | d) <;>
        simp [MessageContext.send_push, hm, hc.1]
  | sendCommit handle p =>
      rw [applyOp_sendCommit]
      rcases hm : mapGet handle c.store.outgoing with _ | (_ | d) <;>
        simp [MessageContext.send_commit, hm, hc.1]
  | replyPush buf =>
      rw [applyOp_replyPush]
      rcases hA : c.store.reply_sent <;> simp [MessageContext.reply_push, hA, hc.1]
  | replyCommit p =>
      rw [applyOp_replyCommit]
      rcases hA : c.store.reply_sent <;> simp [MessageContext.reply_commit, hA, hc.1]
  | wake id =>
      rw [applyOp_wake]
      rcases hA : setMem id c.store.awaken <;> simp [MessageContext.wake, hA, hc.1]

/-- C6 counterexample: with `outgoing_limit = 1`, after a successful
`init_program` the length has reached the limit, yet a second
`init_program` with the same destination fails `DuplicateInit`, not
`LimitExceeded` (the duplicate check runs first). -/
theorem alloc_limit_counterexample :
    (runOps ctxLimitOne [Op.initProgram pktW]).store.outgoing.length
        ≥ ctxLimitOne.settings.outgoing_limit
      ∧ ((runOps ctxLimitOne [Op.initProgram pktW]).init_program pktW).1
          = .error .DuplicateInit
      ∧ ¬ ((runOps ctxLimitOne [Op.initProgram pktW]).init_program pktW).1
          = .error .LimitExceeded := by
  refine ⟨by decide, rfl, fun hc => ?_⟩
  rw [show ((runOps ctxLimitOne [Op.initProgram pktW]).init_program pktW).1
      = Except.error MessageError.DuplicateInit from rfl] at hc
  injection hc with hc'
  cases hc'

/-- C6 (amended): from a fresh context, the outgoing length always equals
the number of successful `init_program`/`send_init` calls and never
exceeds the limit; `send_init` fails `LimitExceeded` exactly when the
length has reached the limit; `init_program` fails `LimitExceeded`
exactly when additionally its destination is not already initialized; and
with `outgoing_limit = 0` every allocation fails `LimitExceeded`. -/
theorem alloc_limit (m : IncomingMessage) (pid : ProgramId) (t : ContextSettings)
    (ops : List Op) :
    (runOps (MessageContext.new_with_settings m pid none t) ops).store.outgoing.length
        = okAllocCount (MessageContext.new_with_settings m pid none t) ops
      ∧ (runOps (MessageContext.new_with_settings m pid none t) ops).store.outgoing.length
          ≤ t.outgoing_limit
      ∧ ((runOps (MessageContext.new_with_settings m pid none t) ops).send_init.1
            = .error .LimitExceeded
          ↔ (runOps (MessageContext.new_with_settings m pid none t)
              ops).store.outgoing.length ≥ t.outgoing_limit)
      ∧ (∀ p : InitPacket,
          ((runOps (MessageContext.new_with_settings m pid none t) ops).init_program p).1
              = .error .LimitExceeded
            ↔ (setMem p.destination
                (runOps (MessageContext.new_with_settings m pid none t)
                  ops).store.initialized = false
              ∧ (runOps (MessageContext.new_with_settings m pid none t)
                  ops).store.outgoing.length ≥ t.outgoing_limit))
      ∧ (t.outgoing_limit = 0 →
          (∀ p : InitPacket,
            ((runOps (MessageContext.new_with_settings m pid none t) ops).init_program p).1
              = .error .LimitExceeded)
          ∧ (runOps (MessageContext.new_with_settings m pid none t) ops).send_init.1
              = .error .LimitExceeded
          ∧ (∀ buf : List Nat,
              (runOps (MessageContext.new_with_settings m pid none t) ops).store.reply_sent
                  = false →
                ((runOps (MessageContext.new_with_settings m pid none t) ops).reply_push
                  buf).1 = .ok ())
          ∧ (∀ id : MessageId,
              setMem id (runOps (MessageContext.new_with_settings m pid none t)
                  ops).store.awaken = false →
                ((runOps (MessageContext.new_with_settings m pid none t) ops).wake
                  id).1 = .ok ())) := by
  have hset : (runOps (MessageContext.new_with_settings m pid none t) ops).settings = t := by
    rw [settings_runOps]
    rfl
  obtain ⟨h1, h2, h3⟩ := alloc_count_run ops (MessageContext.new_with_settings m pid none t)
    rfl (Nat.zero_le _)
  have hiff3 : (runOps (MessageContext.new_with_settings m pid none t) ops).send_init.1
        = .error .LimitExceeded
      ↔ (runOps (MessageContext.new_with_settings m pid none t)
          ops).store.outgoing.length ≥ t.outgoing_limit := by
    simpa [hset] using
      send_init_limit_iff (runOps (MessageContext.new_with_settings m pid none t) ops)
  have hiff4 : ∀ p : InitPacket,
      ((runOps (MessageContext.new_with_settings m pid none t) ops).init_program p).1
          = .error .LimitExceeded
        ↔ (setMem p.destination
            (runOps (MessageContext.new_with_settings m pid none t)
              ops).store.initialized = false
          ∧ (runOps (MessageContext.new_with_settings m pid none t)
              ops).store.outgoing.length ≥ t.outgoing_limit) := by
    intro p
    simpa [hset] using
      init_program_limit_iff (runOps (MessageContext.new_with_settings m pid none t) ops) p
  refine ⟨by simpa [MessageContext.new_with_settings, ContextStore.mk_default] using h1,
    by simpa [hset] using h3, hiff3, hiff4, ?_⟩
  intro hl0
  have hinit : (runOps (MessageContext.new_with_settings m pid none t)
      ops).store.initialized = [] :=
    initialized_empty_of_limit_zero ops _ rfl hl0
  refine ⟨?_, ?_, ?_, ?_⟩
  · intro p
    refine (hiff4 p).mpr ⟨?_, ?_⟩
    · rw [hinit]
      rfl
    · rw [hl0]
      exact Nat.zero_le _
  · refine hiff3.mpr ?_
    rw [hl0]
    exact Nat.zero_le _
  · intro buf hb
    simp [MessageContext.reply_push, hb]
  · intro id hb
    simp [MessageContext.wake, hb]

/-- Closed instance of `alloc_limit` at `outgoing_limit = 0`. -/
theorem alloc_limit_witness :
    ((runOps (MessageContext.new_with_settings msgW 3 none (ContextSettings.new 0 0))
          []).init_program pktW).1 = .error .LimitExceeded
      ∧ ((runOps (MessageContext.new_with_settings msgW 3 none (ContextSettings.new 0 0))
          []).send_init).1 = .error .LimitExceeded :=
  ⟨((alloc_limit msgW 3 (ContextSettings.new 0 0) []).2.2.2.2 rfl).1 pktW,
    ((alloc_limit msgW 3 (ContextSettings.new 0 0) []).2.2.2.2 rfl).2.1⟩

/-- No operation ever clears the reply latch. -/
theorem reply_sent_step (c : MessageContext) (op : Op)
    (h : c.store.reply_sent = true) :
    (applyOp c op).2.store.reply_sent = true := by
  cases op <;>
    simp only [applyOp_initProgram, applyOp_sendInit, applyOp_sendPush, applyOp_sendCommit,
      applyOp_replyPush, applyOp_replyCommit, applyOp_wake, MessageContext.init_program,
      MessageContext.send_init, MessageContext.send_push, MessageContext.send_commit,
      MessageContext.reply_push, MessageContext.reply_commit, MessageContext.wake] <;>
    (repeat' split) <;> simp_all

/-- The reply latch survives any run. -/
theorem reply_sent_mono (c : MessageContext) (ops : List Op)
    (h : c.store.reply_sent = true) :
    (runOps c ops).store.reply_sent = true :=
  runOps_preserve (fun x => x.store.reply_sent = true) reply_sent_step ops c h

/-- `reply_commit` against a set latch fails `DuplicateReply`. -/
theorem reply_commit_err_of_sent (c : MessageContext) (pkt : ReplyPacket)
    (h : c.store.reply_sent = true) :
    (c.reply_commit pkt).1 = .error .DuplicateReply := by
  simp [MessageContext.reply_commit, h]

/-- `reply_push` against a set latch fails `LateAccess`. -/
theorem reply_push_err_of_sent (c : MessageContext) (buf : List Nat)
    (h : c.store.reply_sent = true) :
    (c.reply_push buf).1 = .error .LateAccess := by
  simp [MessageContext.reply_push, h]

/-- Once the latch is set, no further `reply_commit` in a run succeeds. -/
theorem okReplyCount_zero_of_sent (ops : List Op) :
    ∀ c : MessageContext, c.store.reply_sent = true → okReplyCount c ops = 0 := by
  induction ops with
  | nil =>
      intro c h
      rfl
  | cons op ops ih =>
      intro c h
      rw [okReplyCount_cons, ih _ (reply_sent_step c op h)]
      cases op with
      | replyCommit p =>
          simp [Op.isReplyCommit, applyOp_replyCommit, isErr_map,
            reply_commit_err_of_sent c p h, isErr, Except.map]
      | initProgram q => simp [Op.isReplyCommit]
      | sendInit => simp [Op.isReplyCommit]
      | sendPush a b => simp [Op.isReplyCommit]
      | sendCommit a b => simp [Op.isReplyCommit]
      | replyPush b => simp [Op.isReplyCommit]
      | wake i => simp [Op.isReplyCommit]

/-- A successful `reply_commit` sets the latch. -/
theorem reply_commit_sets_latch (c : MessageContext) (pkt : ReplyPacket)
    (h : isErr (c.reply_commit pkt).1 = false) :
    (c.reply_commit pkt).2.store.reply_sent = true := by
  rcases hA : c.store.reply_sent
  · simp [MessageContext.reply_commit, hA]
  · rw [reply_commit_err_of_sent c pkt hA] at h
    cases h

/-- In any run, at most one `reply_commit` returns Ok. -/
theorem okReplyCount_le_one (ops : List Op) :
    ∀ c : MessageContext, okReplyCount c ops ≤ 1 := by
  induction ops with
  | nil =>
      intro c
      exact Nat.zero_le 1
  | cons op ops ih =>
      intro c
      rw [okReplyCount_cons]
      by_cases hcond : (op.isReplyCommit && !isErr (applyOp c op).1) = true
      · rw [if_pos hcond]
        cases op with
        | replyCommit p =>
            have hok : isErr (c.reply_commit p).1 = false := by
              simpa [Op.isReplyCommit, applyOp_replyCommit, isErr_map] using hcond
            have hlatch : (applyOp c (.replyCommit p)).2.store.reply_sent = true := by
              rw [applyOp_replyCommit]
              exact reply_commit_sets_latch c p hok
            rw [okReplyCount_zero_of_sent ops _ hlatch]
        | initProgram q => simp [Op.isReplyCommit] at hcond
        | sendInit => simp [Op.isReplyCommit] at hcond
        | sendPush a b => simp [Op.isReplyCommit] at hcond
        | sendCommit a b => simp [Op.isReplyCommit] at hcond
        | replyPush b => simp [Op.isReplyCommit] at hcond
        | wake i => simp [Op.isReplyCommit] at hcond
      · rw [if_neg hcond]
        simpa using ih (applyOp c op).2

/-- C7: single-reply latch — in any run at most one `reply_commit`
returns Ok, and once the latch is set every subsequent `reply_commit`
fails `DuplicateReply` and every subsequent `reply_push` fails
`LateAccess`, whatever operations run in between. -/
theorem single_reply_latch :
    (∀ (c : MessageContext) (ops : List Op), okReplyCount c ops ≤ 1)
      ∧ (∀ c : MessageContext, c.store.reply_sent = true →
          ∀ (ops : List Op) (pkt : ReplyPacket) (buf : List Nat),
            ((runOps c ops).reply_commit pkt).1 = .error .DuplicateReply
              ∧ ((runOps c ops).reply_push buf).1 = .error .LateAccess) :=
  ⟨fun c ops => okReplyCount_le_one ops c,
    fun c hc ops pkt buf =>
      ⟨reply_commit_err_of_sent _ pkt (reply_sent_mono c ops hc),
        reply_push_err_of_sent _ buf (reply_sent_mono c ops hc)⟩⟩

/-- Closed instance of `single_reply_latch`. -/
theorem single_reply_latch_witness :
    okReplyCount ctxW [Op.replyCommit rpktW, Op.replyCommit rpktW] ≤ 1
      ∧ ((runOps (ctxW.reply_commit rpktW).2 [Op.sendInit]).reply_commit rpktW).1
          = .error .DuplicateReply :=
  ⟨single_reply_latch.1 ctxW [Op.replyCommit rpktW, Op.replyCommit rpktW],
    (single_reply_latch.2 (ctxW.reply_commit rpktW).2 rfl [Op.sendInit] rpktW [1]).1⟩

/-- C8: streamed bytes precede the committing packet's bytes — committing
an open handle whose buffer is `data` produces the handle message
`from_packet` of the packet with `data` prepended; and in the concrete
streaming scenario the drained dispatch payloads are `[[], [5, 7, 9]]`,
so the second dispatch carries `[5, 7, 9]`. -/
theorem send_commit_prepend :
    (∀ (c : MessageContext) (h : Nat) (data : Payload) (pkt : HandlePacket),
      mapGet h c.store.outgoing = some (some data) →
        (c.send_commit h pkt).1 = .ok (MessageId.generate_outgoing c.current.id h)
          ∧ (c.send_commit h pkt).2.outcome.handle
              = c.outcome.handle
                ++ [HandleMessage.from_packet
                    (MessageId.generate_outgoing c.current.id h) (pkt.prepend data)])
      ∧ (((runOps ctxW [Op.initProgram pktW, Op.sendInit, Op.sendPush 1 [5, 7],
            Op.sendPush 1 [9], Op.sendCommit 1 hpktW]).drain).1.drain).1.map
            (fun d => d.message.payload) = [[], [5, 7, 9]] := by
  constructor
  · intro c h data pkt hm
    constructor <;> simp [MessageContext.send_commit, hm]
  · rfl

/-- Closed instance of `send_commit_prepend`. -/
theorem send_commit_prepend_witness :
    ((runOps ctxW [Op.initProgram pktW, Op.sendInit, Op.sendPush 1 [5, 7],
          Op.sendPush 1 [9]]).send_commit 1 hpktW).1
        = .ok (MessageId.generate_outgoing 3 1)
      ∧ ((runOps ctxW [Op.initProgram pktW, Op.sendInit, Op.sendPush 1 [5, 7],
          Op.sendPush 1 [9]]).send_commit 1 hpktW).2.outcome.handle
          = (runOps ctxW [Op.initProgram pktW, Op.sendInit, Op.sendPush 1 [5, 7],
              Op.sendPush 1 [9]]).outcome.handle
            ++ [HandleMessage.from_packet (MessageId.generate_outgoing 3 1)
                (hpktW.prepend [5, 7, 9])] :=
  send_commit_prepend.1
    (runOps ctxW [Op.initProgram pktW, Op.sendInit, Op.sendPush 1 [5, 7],
      Op.sendPush 1 [9]]) 1 [5, 7, 9] hpktW rfl

/-- Membership in the awaken set survives every single operation. -/
theorem awaken_mem_step (id : MessageId) (c : MessageContext) (op : Op)
    (h : setMem id c.store.awaken = true) :
    setMem id (applyOp c op).2.store.awaken = true := by
  cases op <;>
    simp only [applyOp_initProgram, applyOp_sendInit, applyOp_sendPush, applyOp_sendCommit,
      applyOp_replyPush, applyOp_replyCommit, applyOp_wake, MessageContext.init_program,
      MessageContext.send_init, MessageContext.send_push, MessageContext.send_commit,
      MessageContext.reply_push, MessageContext.reply_commit, MessageContext.wake] <;>
    (repeat' split) <;> simp_all [setMem_setInsert]

/-- Membership in the awaken set survives any run. -/
theorem awaken_mem_mono (id : MessageId) (c : MessageContext) (ops : List Op)
    (h : setMem id c.store.awaken = true) :
    setMem id (runOps c ops).store.awaken = true :=
  runOps_preserve (fun x => setMem id x.store.awaken = true)
    (fun x op hx => awaken_mem_step id x op hx) ops c h

/-- `wake` of a member of the awaken set fails `DuplicateWaking`. -/
theorem wake_err_of_mem (c : MessageContext) (id : MessageId)
    (h : setMem id c.store.awaken = true) :
    (c.wake id).1 = .error .DuplicateWaking := by
  simp [MessageContext.wake, h]

/-- C9: `wake` of a fresh id succeeds, inserting the id into the awaken
set and appending it to the awakening list; `wake` of an id already in
the awaken set fails `DuplicateWaking`; and after a successful wake every
later wake of the same id, whatever runs in between, fails
`DuplicateWaking`. -/
theorem wake_dedup :
    (∀ (c : MessageContext) (id : MessageId),
      setMem id c.store.awaken = false →
        (c.wake id).1 = .ok ()
          ∧ (c.wake id).2.store.awaken = setInsert id c.store.awaken
          ∧ (c.wake id).2.outcome.awakening = c.outcome.awakening ++ [id])
      ∧ (∀ (c : MessageContext) (id : MessageId),
          setMem id c.store.awaken = true →
            ∀ ops : List Op, ((runOps c ops).wake id).1 = .error .DuplicateWaking)
      ∧ (∀ (c : MessageContext) (id : MessageId),
          setMem id c.store.awaken = false →
            ∀ ops : List Op,
              ((runOps (c.wake id).2 ops).wake id).1 = .error .DuplicateWaking) := by
  refine ⟨?_, ?_, ?_⟩
  · intro c id h
    refine ⟨?_, ?_, ?_⟩ <;> simp [MessageContext.wake, h]
  · intro c id h ops
    exact wake_err_of_mem _ id (awaken_mem_mono id c ops h)
  · intro c id h ops
    have hmem : setMem id (c.wake id).2.store.awaken = true := by
      simp [MessageContext.wake, h, setMem_setInsert]
    exact wake_err_of_mem _ id (awaken_mem_mono id _ ops hmem)

/-- Closed instance of `wake_dedup`. -/
theorem wake_dedup_witness :
    (ctxW.wake 5).1 = .ok ()
      ∧ ((runOps (ctxW.wake 5).2 [Op.sendInit]).wake 5).1 = .error .DuplicateWaking :=
  ⟨(wake_dedup.1 ctxW 5 rfl).1, wake_dedup.2.2 ctxW 5 rfl [Op.sendInit]⟩

/-- C10: before the latch is set, `reply_push` succeeds and mutates only
`store.reply` (lazily created, bytes appended), leaving the outcome — in
particular its reply slot — and every other store field unchanged; hence
draining a context whose outcome has no reply yields a dispatch list
without a reply dispatch while the returned store still carries the
accumulated reply buffer. -/
theorem reply_push_frame (c : MessageContext) (buf : List Nat)
    (h : c.store.reply_sent = false) :
    (c.reply_push buf).1 = .ok ()
      ∧ (c.reply_push buf).2
          = { c with store := { c.store with
              reply := some (c.store.reply.getD [] ++ buf) } }
      ∧ (c.outcome.reply = none →
          (((c.reply_push buf).2.drain).1.drain).1
              = c.outcome.init.map (fun m => m.into_dispatch c.outcome.program_id)
                ++ c.outcome.handle.map (fun m => m.into_dispatch c.outcome.program_id)
            ∧ ((c.reply_push buf).2.drain).2.reply
                = some (c.store.reply.getD [] ++ buf)) := by
  have h2 : (c.reply_push buf).2
      = { c with store := { c.store with
          reply := some (c.store.reply.getD [] ++ buf) } } := by
    simp [MessageContext.reply_push, h]
  refine ⟨by simp [MessageContext.reply_push, h], h2, fun hrep => ⟨?_, ?_⟩⟩
  · rw [h2, MessageContext.drain]
    rw [drain_eq_concat]
    simp [hrep]
  · rw [h2]
    rfl

/-- Closed instance of `reply_push_frame`. -/
theorem reply_push_frame_witness :
    (ctxW.reply_push [1, 2, 3]).1 = .ok ()
      ∧ (((ctxW.reply_push [1, 2, 3]).2.drain).1.drain).1 = []
      ∧ ((ctxW.reply_push [1, 2, 3]).2.drain).2.reply = some [1, 2, 3] := by
  obtain ⟨w1, w2, w3⟩ := reply_push_frame ctxW [1, 2, 3] rfl
  obtain ⟨w4, w5⟩ := w3 rfl
  exact ⟨w1, by simpa using w4, by simpa using w5⟩

end Gear

